import Mathlib

/-!
Shallow embedding of the appointment-scheduling core of the repository
(`server/routes.ts`, `server/turso-storage.ts`, and the in-memory storage
variant), together with proofs about the claims of the specification.

The database-backed `TursoStorage` methods are modelled as pure state
transformers over a `DB` record (the SQLite tables plus the AUTOINCREMENT
counters and a timestamp counter).  Each `await`ed SQL statement of the
source becomes one atomic Lean function, and the storage methods are their
sequential compositions, so that interleaved executions can be expressed
with the very same pieces.  JavaScript truthiness (`a || b`), `parseInt`
on decimal strings and the `LIKE prefix||'%'` SQL filter are modelled
explicitly below.
-/

namespace Embasa

/-- JavaScript `a || b` on numbers: `0` is falsy. -/
def jsOrInt (a b : Int) : Int := if a = 0 then b else a

/-- JavaScript `a || b` where `a` is a possibly-absent number
(`none` models `undefined`). -/
def jsOrOptInt (a : Option Int) (b : Int) : Int :=
  match a with
  | none => b
  | some v => if v = 0 then b else v

/-- JavaScript `a || b` where `a` is a possibly-absent string: `undefined`
and the empty string are falsy. -/
def jsOrStr (a : Option String) (b : String) : String :=
  match a with
  | none => b
  | some s => if s = "" then b else s

/-- JavaScript `a || b` on strings: the empty string is falsy. -/
def jsStrOr (a b : String) : String := if a = "" then b else a

/-- The decimal value of a digit character, `none` otherwise. -/
def decDigit? (c : Char) : Option Nat :=
  if 48 ≤ c.toNat && c.toNat ≤ 57 then some (c.toNat - 48) else none

/-- Accumulating decimal reading of a character list; `none` on the first
non-digit. -/
def decCharsAux : List Char → Nat → Option Nat
  | [], acc => some acc
  | c :: cs, acc =>
    match decDigit? c with
    | some d => decCharsAux cs (acc * 10 + d)
    | none => none

/-- `parseInt` of the source, modelled for decimal-digit strings: the
empty string or any non-digit character yields `none` (the `NaN`
outcome). -/
def parseDecimal (s : String) : Option Nat :=
  match s.data with
  | [] => none
  | l => decCharsAux l 0

/-- JavaScript `String.prototype.split` on a single separator character. -/
def splitOnChar (c : Char) : List Char → List (List Char)
  | [] => [[]]
  | x :: xs =>
    match splitOnChar c xs, x == c with
    | r, true => [] :: r
    | [], false => [[x]]
    | y :: ys, false => (x :: y) :: ys

/-- Total minutes of a `"HH:MM"` time string, following
`parseInt(s.split(':')[0]) * 60 + parseInt(s.split(':')[1])` in
`turso-storage.ts`.  `none` models the `NaN` outcome (a missing `:` part
or non-digit text), in which case the source's `>` comparison is false. -/
def timeTotalMinutes (s : String) : Option Int :=
  match ((splitOnChar ':' s.data)[0]?).bind (fun l => parseDecimal ⟨l⟩),
      ((splitOnChar ':' s.data)[1]?).bind (fun l => parseDecimal ⟨l⟩) with
  | some h, some m => some ((h : Int) * 60 + (m : Int))
  | _, _ => none

/-- An `access_codes` row. -/
structure AccessCode where
  id : Nat
  code : String
  role : String
  location : String
  active : Bool
  createdAt : Nat
deriving Repr, DecidableEq

/-- An `availabilities` row. -/
structure Availability where
  id : Nat
  date : String
  startTime : String
  endTime : String
  capacity : Int
  remainingSlots : Int
  createdBy : String
  createdAt : Nat
deriving Repr, DecidableEq

/-- A `bookings` row. -/
structure Booking where
  id : Nat
  availabilityId : Nat
  clientName : String
  clientDocument : String
  clientPhone : String
  serviceNumber : String
  timeSlot : String
  comments : String
  createdBy : String
  createdAt : Nat
  status : String
deriving Repr, DecidableEq

/-- `InsertAvailability` as consumed by `TursoStorage.createAvailability`
(`remainingSlots` may be absent, the method falls back to `capacity`). -/
structure InsertAvailability where
  date : String
  startTime : String
  endTime : String
  capacity : Int
  remainingSlots : Option Int
  createdBy : String
deriving Repr, DecidableEq

/-- The `InsertBooking` type of `shared/schema.ts` (the third document of
`src/unnamed/part_000`): `createInsertSchema(bookings).omit({id,
createdAt})`.  `availabilityId`, `clientName`, `serviceNumber`,
`timeSlot` and `createdBy` are required (`notNull` columns without a
default), `clientDocument`, `clientPhone` and `comments` are nullable,
and `status` is optional because its column carries
`default("confirmed")`.  `POST /api/bookings` validates its body against
exactly this schema, so a validated request body also has this shape
(the handler then overrides `createdBy` with the session code). -/
structure InsertBooking where
  availabilityId : Nat
  clientName : String
  clientDocument : Option String
  clientPhone : Option String
  serviceNumber : String
  timeSlot : String
  comments : Option String
  createdBy : String
  status : Option String
deriving Repr, DecidableEq

/-- Partial update for `access_codes` (`Partial<InsertAccessCode>`). -/
structure AccessCodeUpdates where
  code : Option String
  role : Option String
  location : Option String
  active : Option Bool
deriving Repr, DecidableEq

/-- Partial update for `availabilities` (`Partial<InsertAvailability>`). -/
structure AvailabilityUpdates where
  date : Option String
  startTime : Option String
  endTime : Option String
  capacity : Option Int
  remainingSlots : Option Int
deriving Repr, DecidableEq

/-- The persistent state: the three tables, the `AUTOINCREMENT` counters
and a logical clock for `CURRENT_TIMESTAMP`. -/
structure DB where
  accessCodes : List AccessCode
  availabilities : List Availability
  bookings : List Booking
  nextAccessCodeId : Nat
  nextAvailabilityId : Nat
  nextBookingId : Nat
  now : Nat
deriving Repr, DecidableEq

/-- Errors thrown by the storage layer (`throw new Error(...)`). -/
inductive StorageError
  | availabilityNotFound
  | slotsExhausted
  | invalidTimeRange
deriving Repr, DecidableEq

/-- Errors returned by the HTTP route handlers, by status/message. -/
inductive ApiError
  | unauthenticated
  | forbidden
  | missingAccessCode
  | invalidCredential
  | invalidDate
  | invalidStartTime
  | invalidEndTime
  | invalidCapacity
  | availabilityNotFound
  | slotsExhausted
  | notFound
  | storageFailure (e : StorageError)
deriving Repr, DecidableEq

/-- `SELECT * FROM access_codes WHERE code = ? AND active = 1` (first row). -/
def tursoGetAccessCode (db : DB) (code : String) : Option AccessCode :=
  db.accessCodes.find? (fun c => c.code == code && c.active)

/-- `TursoStorage.updateAccessCode`: builds `SET` clauses from the fields
that are present; returns `none` when no field is present or no row has
the id, otherwise the updated row and state. -/
def tursoUpdateAccessCode (db : DB) (id : Nat) (u : AccessCodeUpdates) :
    Option (AccessCode × DB) :=
  if u.code = none && u.role = none && u.location = none && u.active = none then
    none
  else
    match db.accessCodes.find? (fun c => c.id == id) with
    | none => none
    | some c =>
      let c' : AccessCode :=
        { c with
          code := u.code.getD c.code
          role := u.role.getD c.role
          location := u.location.getD c.location
          active := u.active.getD c.active }
      some (c', { db with
        accessCodes := db.accessCodes.map (fun r => if r.id == id then c' else r) })

/-- `TursoStorage.deleteAccessCode`: `DELETE FROM access_codes WHERE id = ?`,
a hard delete; returns whether a row was affected. -/
def tursoDeleteAccessCode (db : DB) (id : Nat) : Bool × DB :=
  ((db.accessCodes.find? (fun c => c.id == id)).isSome,
   { db with accessCodes := db.accessCodes.filter (fun c => !(c.id == id)) })

/-- `MemStorage.getAccessCode`: find the active row with the code. -/
def memGetAccessCode (db : DB) (code : String) : Option AccessCode :=
  db.accessCodes.find? (fun c => c.code == code && c.active)

/-- `MemStorage.deleteAccessCode`: "Instead of deleting, mark as inactive"
(a soft delete). -/
def memDeleteAccessCode (db : DB) (id : Nat) : Bool × DB :=
  match db.accessCodes.find? (fun c => c.id == id) with
  | none => (false, db)
  | some c =>
    (true, { db with
      accessCodes :=
        db.accessCodes.map (fun r => if r.id == id then { c with active := false } else r) })

/-- `SELECT * FROM availabilities WHERE id = ?` (first row). -/
def tursoGetAvailability (db : DB) (id : Nat) : Option Availability :=
  db.availabilities.find? (fun a => a.id == id)

/-- `TursoStorage.updateAvailability`: `SET` clauses from present fields;
`none` when no field is present or the id matches no row. -/
def tursoUpdateAvailability (db : DB) (id : Nat) (u : AvailabilityUpdates) :
    Option (Availability × DB) :=
  if u.date = none && u.startTime = none && u.endTime = none &&
      u.capacity = none && u.remainingSlots = none then
    none
  else
    match db.availabilities.find? (fun a => a.id == id) with
    | none => none
    | some a =>
      let a' : Availability :=
        { a with
          date := u.date.getD a.date
          startTime := u.startTime.getD a.startTime
          endTime := u.endTime.getD a.endTime
          capacity := u.capacity.getD a.capacity
          remainingSlots := u.remainingSlots.getD a.remainingSlots }
      some (a', { db with
        availabilities := db.availabilities.map (fun r => if r.id == id then a' else r) })

/-- `TursoStorage.updateAvailability` when the underlying `UPDATE`
statement can raise: the method catches any error and returns `undefined`
with the state untouched.  `fails = true` injects such a statement-level
failure. -/
def tursoUpdateAvailabilityF (fails : Bool) (db : DB) (id : Nat)
    (u : AvailabilityUpdates) : Option (Availability × DB) :=
  if fails then none else tursoUpdateAvailability db id u

/-- `TursoStorage.deleteAvailability`: hard `DELETE ... WHERE id = ?`. -/
def tursoDeleteAvailability (db : DB) (id : Nat) : Bool × DB :=
  ((db.availabilities.find? (fun a => a.id == id)).isSome,
   { db with availabilities := db.availabilities.filter (fun a => !(a.id == id)) })

/-- the `INSERT INTO availabilities ... RETURNING *` statement of
`TursoStorage.createAvailability`. -/
def tursoInsertAvailabilityRow (db : DB) (ins : InsertAvailability) :
    Availability × DB :=
  let a : Availability :=
    { id := db.nextAvailabilityId
      date := ins.date
      startTime := ins.startTime
      endTime := ins.endTime
      capacity := ins.capacity
      remainingSlots := jsOrOptInt ins.remainingSlots ins.capacity
      createdBy := ins.createdBy
      createdAt := db.now }
  (a, { db with
    availabilities := db.availabilities ++ [a]
    nextAvailabilityId := db.nextAvailabilityId + 1
    now := db.now + 1 })

/-- `TursoStorage.createAvailability`: validates that the time span does
not exceed 120 minutes (and nothing else), then inserts the row with
`remaining_slots = availability.remainingSlots || availability.capacity`. -/
def tursoCreateAvailability (db : DB) (ins : InsertAvailability) :
    Except StorageError (Availability × DB) :=
  match timeTotalMinutes ins.startTime, timeTotalMinutes ins.endTime with
  | some s, some e =>
    if e - s > 120 then .error .invalidTimeRange
    else .ok (tursoInsertAvailabilityRow db ins)
  | _, _ => .ok (tursoInsertAvailabilityRow db ins)

/-- the `INSERT INTO bookings ... RETURNING *` statement of
`TursoStorage.createBooking`, with the source's `|| ""` / `|| "confirmed"`
defaults. -/
def tursoInsertBookingRow (db : DB) (b : InsertBooking) : Booking × DB :=
  let bk : Booking :=
    { id := db.nextBookingId
      availabilityId := b.availabilityId
      clientName := b.clientName
      clientDocument := jsOrStr b.clientDocument ""
      clientPhone := jsOrStr b.clientPhone ""
      serviceNumber := jsStrOr b.serviceNumber ""
      timeSlot := b.timeSlot
      comments := jsOrStr b.comments ""
      createdBy := b.createdBy
      createdAt := db.now
      status := jsOrStr b.status "confirmed" }
  (bk, { db with
    bookings := db.bookings ++ [bk]
    nextBookingId := db.nextBookingId + 1
    now := db.now + 1 })

/-- the partial update `{ remainingSlots: v }` passed by `createBooking`. -/
def slotsOnlyUpdate (v : Int) : AvailabilityUpdates :=
  { date := none, startTime := none, endTime := none, capacity := none,
    remainingSlots := some v }

/-- `TursoStorage.createBooking`: fetch the availability, fail when it is
absent or has no remaining slots, insert the booking, then update the
availability's `remaining_slots`; the result of that update is ignored
(`updateFails` injects a statement-level failure of the `UPDATE`, which
`updateAvailability` swallows). -/
def tursoCreateBooking (updateFails : Bool) (db : DB) (b : InsertBooking) :
    Except StorageError (Booking × DB) :=
  match tursoGetAvailability db b.availabilityId with
  | none => .error .availabilityNotFound
  | some a =>
    if a.remainingSlots ≤ 0 then .error .slotsExhausted
    else
      let p := tursoInsertBookingRow db b
      let db2 :=
        match tursoUpdateAvailabilityF updateFails p.2 b.availabilityId
            (slotsOnlyUpdate (a.remainingSlots - 1)) with
        | some q => q.2
        | none => p.2
      .ok (p.1, db2)

/-- The decimal digit character of `d` (for `d < 10`). -/
def digitChar (d : Nat) : Char := Char.ofNat (48 + d)

/-- Little-endian decimal digits of `n`, computed with structural fuel so
that it evaluates by `decide`/`rfl`; agrees with `Nat.digits 10`
(see `natDigitsAux_eq`). -/
def natDigitsAux : Nat → Nat → List Nat
  | _, 0 => []
  | 0, _ + 1 => []
  | fuel + 1, n + 1 => ((n + 1) % 10) :: natDigitsAux fuel ((n + 1) / 10)

/-- JavaScript `String(n)` for a natural number: its decimal rendering. -/
def natToStr (n : Nat) : String :=
  if n = 0 then "0" else ⟨((natDigitsAux n n).map digitChar).reverse⟩

/-- `String(m).padStart(2, '0')`. -/
def padTwo (m : Nat) : String :=
  if m < 10 then "0" ++ natToStr m else natToStr m

/-- The month key built by `getAvailabilitiesByMonth`:
`` `${year}-${String(month).padStart(2, '0')}` ``. -/
def monthPref (year month : Nat) : String := natToStr year ++ "-" ++ padTwo month

/-- An ISO `YYYY-MM-DD` date string. -/
def isoDateStr (y m d : Nat) : String :=
  natToStr y ++ "-" ++ padTwo m ++ "-" ++ padTwo d

/-- SQL `s LIKE p||'%'`: the byte string `p` is a prefix of `s`. -/
def strHasPref (p s : String) : Bool := p.data.isPrefixOf s.data

/-- The order produced by `ORDER BY date ASC, start_time ASC`
(SQLite compares TEXT bytewise, which on these ASCII columns is the
lexicographic string order). -/
def availOrder (a b : Availability) : Prop :=
  a.date < b.date ∨ (a.date = b.date ∧ a.startTime ≤ b.startTime)

instance : DecidableRel availOrder := fun _ _ =>
  inferInstanceAs (Decidable (_ ∨ _))

instance : IsTotal Availability availOrder where
  total a b := by
    rcases lt_trichotomy a.date b.date with h | h | h
    · exact Or.inl (Or.inl h)
    · rcases le_total a.startTime b.startTime with h2 | h2
      · exact Or.inl (Or.inr ⟨h, h2⟩)
      · exact Or.inr (Or.inr ⟨h.symm, h2⟩)
    · exact Or.inr (Or.inl h)

instance : IsTrans Availability availOrder where
  trans a b c hab hbc := by
    rcases hab with h1 | ⟨e1, l1⟩
    · rcases hbc with h2 | ⟨e2, _⟩
      · exact Or.inl (h1.trans h2)
      · exact Or.inl (e2 ▸ h1)
    · rcases hbc with h2 | ⟨e2, l2⟩
      · exact Or.inl (e1 ▸ h2)
      · exact Or.inr ⟨e1.trans e2, l1.trans l2⟩

/-- The order produced by `ORDER BY created_at DESC` on access codes. -/
def accessCodeNewest (a b : AccessCode) : Prop := b.createdAt ≤ a.createdAt

instance : DecidableRel accessCodeNewest := fun _ _ =>
  inferInstanceAs (Decidable (_ ≤ _))

instance : IsTotal AccessCode accessCodeNewest where
  total a b := le_total b.createdAt a.createdAt

instance : IsTrans AccessCode accessCodeNewest where
  trans _ _ _ hab hbc := le_trans hbc hab

/-- `TursoStorage.listAccessCodes`:
`SELECT * FROM access_codes ORDER BY created_at DESC`. -/
def tursoListAccessCodes (db : DB) : List AccessCode :=
  List.insertionSort accessCodeNewest db.accessCodes

/-- `MemStorage.listAccessCodes`: the stored rows, unordered. -/
def memListAccessCodes (db : DB) : List AccessCode := db.accessCodes

/-- `TursoStorage.getAvailabilitiesByMonth`:
`SELECT * FROM availabilities WHERE date LIKE ?||'%' ORDER BY date ASC,
start_time ASC` with the `${year}-${MM}` prefix. -/
def tursoGetAvailabilitiesByMonth (db : DB) (year month : Nat) : List Availability :=
  List.insertionSort availOrder
    (db.availabilities.filter (fun a => strHasPref (monthPref year month) a.date))

/-- The role-bearing identity stored in the session by the login route. -/
structure SessionUser where
  id : Nat
  code : String
  role : String
deriving Repr, DecidableEq

/-- `POST /api/auth/login`: reject an empty access code, look the code up
(active rows only), reject when absent, otherwise establish the session
identity. -/
def apiLogin (db : DB) (accessCode : String) : Except ApiError SessionUser :=
  if accessCode = "" then .error .missingAccessCode
  else
    match tursoGetAccessCode db accessCode with
    | none => .error .invalidCredential
    | some u =>
      if u.active then .ok { id := u.id, code := u.code, role := u.role }
      else .error .invalidCredential

/-- The request body of `POST /api/availabilities` after JSON parsing.
`none` fields model absent/non-string values; `capacity` is `none` when
absent or `Number(...)` gives `NaN`; `dateParses` models
`!isNaN(new Date(dateStr).getTime())`, the environment's date parser. -/
structure AvailabilityBody where
  date : Option String
  dateParses : Bool
  startTime : Option String
  endTime : Option String
  capacity : Option Int
deriving Repr, DecidableEq

/-- `POST /api/availabilities` (embasa-gated): field-presence checks in
source order, then `storage.createAvailability` with
`remainingSlots = capacity` and `createdBy` from the session.  Returns the
response together with the resulting state. -/
def apiCreateAvailability (db : DB) (user : SessionUser) (body : AvailabilityBody) :
    Except ApiError Availability × DB :=
  if user.role ≠ "embasa" then (.error .forbidden, db)
  else
    match body.date with
    | none => (.error .invalidDate, db)
    | some ds =>
      if ds = "" then (.error .invalidDate, db)
      else
        match body.startTime with
        | none => (.error .invalidStartTime, db)
        | some st =>
          if st = "" then (.error .invalidStartTime, db)
          else
            match body.endTime with
            | none => (.error .invalidEndTime, db)
            | some et =>
              if et = "" then (.error .invalidEndTime, db)
              else
                match body.capacity with
                | none => (.error .invalidCapacity, db)
                | some c =>
                  if c = 0 then (.error .invalidCapacity, db)
                  else if !body.dateParses then (.error .invalidDate, db)
                  else
                    match tursoCreateAvailability db
                        { date := ds, startTime := st, endTime := et,
                          capacity := c, remainingSlots := some c,
                          createdBy := user.code } with
                    | .ok (a, db') => (.ok a, db')
                    | .error e => (.error (.storageFailure e), db)

/-- `{ ...req.body, createdBy: req.session.user.code }`: the body
validated by `insertBookingSchema` is an `InsertBooking`, whose
`createdBy` the handler overrides with the session code. -/
def bodyToInsert (body : InsertBooking) (code : String) : InsertBooking :=
  { body with createdBy := code }

/-- `POST /api/bookings` (sac-gated): fetch the availability, 404 when
absent, 400 "No slots available" when `remainingSlots <= 0`, otherwise
`storage.createBooking` with `createdBy` from the session. -/
def apiCreateBooking (db : DB) (user : SessionUser) (body : InsertBooking) :
    Except ApiError Booking × DB :=
  if user.role ≠ "sac" then (.error .forbidden, db)
  else
    match tursoGetAvailability db body.availabilityId with
    | none => (.error .availabilityNotFound, db)
    | some a =>
      if a.remainingSlots ≤ 0 then (.error .slotsExhausted, db)
      else
        match tursoCreateBooking false db (bodyToInsert body user.code) with
        | .ok (bk, db') => (.ok bk, db')
        | .error e => (.error (.storageFailure e), db)

/-- `DELETE /api/availabilities/:id` (embasa-gated): 404 when absent,
403 unless the session user created it, then hard delete. -/
def apiDeleteAvailability (db : DB) (user : SessionUser) (id : Nat) :
    Except ApiError Unit × DB :=
  if user.role ≠ "embasa" then (.error .forbidden, db)
  else
    match tursoGetAvailability db id with
    | none => (.error .notFound, db)
    | some a =>
      if a.createdBy ≠ user.code then (.error .forbidden, db)
      else
        let p := tursoDeleteAvailability db id
        if p.1 then (.ok (), p.2) else (.error .notFound, db)

/-- `DELETE /api/access-codes/:id` (admin-gated): `storage.deleteAccessCode`
with the Turso storage, i.e. a hard row delete. -/
def apiDeleteAccessCode (db : DB) (user : SessionUser) (id : Nat) :
    Except ApiError Unit × DB :=
  if user.role ≠ "admin" then (.error .forbidden, db)
  else
    let p := tursoDeleteAccessCode db id
    if p.1 then (.ok (), p.2) else (.error .notFound, db)

/-- `GET /api/access-codes` (admin-gated). -/
def apiListAccessCodes (db : DB) (user : SessionUser) :
    Except ApiError (List AccessCode) :=
  if user.role ≠ "admin" then .error .forbidden
  else .ok (tursoListAccessCodes db)

/-- The core state-changing operations on availabilities, for invariant
claims over operation sequences: availability creation and booking via
their routes, plus the storage-level administrative update and the
deletion route. -/
inductive Op
  | createAvail (user : SessionUser) (body : AvailabilityBody)
  | createBooking (user : SessionUser) (body : InsertBooking)
  | updateAvail (id : Nat) (u : AvailabilityUpdates)
  | deleteAvail (user : SessionUser) (id : Nat)
deriving Repr

/-- Resulting state of one operation (failed requests leave the state
unchanged, as the handlers do). -/
def applyOp (db : DB) : Op → DB
  | .createAvail user body => (apiCreateAvailability db user body).2
  | .createBooking user body => (apiCreateBooking db user body).2
  | .updateAvail id u =>
    match tursoUpdateAvailability db id u with
    | some p => p.2
    | none => db
  | .deleteAvail user id => (apiDeleteAvailability db user id).2

/-- Left-to-right application of an operation sequence. -/
def applyOps (ops : List Op) (db : DB) : DB :=
  ops.foldl applyOp db

/-- The interleaved execution of two `TursoStorage.createBooking` calls in
which both availability reads happen before either write, built from the
same atomic statements as `tursoCreateBooking` (each `await` of the source
is one step): R1 fetch, R2 fetch, R1 insert, R1 update, R2 insert,
R2 update.  `none` means this schedule made one of the requests fail. -/
def raceTwoBookings (db : DB) (b1 b2 : InsertBooking) :
    Option ((Booking × Booking) × DB) :=
  match tursoGetAvailability db b1.availabilityId,
      tursoGetAvailability db b2.availabilityId with
  | some a1, some a2 =>
    if a1.remainingSlots ≤ 0 then none
    else if a2.remainingSlots ≤ 0 then none
    else
      let p1 := tursoInsertBookingRow db b1
      let db1 :=
        match tursoUpdateAvailabilityF false p1.2 b1.availabilityId
            (slotsOnlyUpdate (a1.remainingSlots - 1)) with
        | some q => q.2
        | none => p1.2
      let p2 := tursoInsertBookingRow db1 b2
      let db2 :=
        match tursoUpdateAvailabilityF false p2.2 b2.availabilityId
            (slotsOnlyUpdate (a2.remainingSlots - 1)) with
        | some q => q.2
        | none => p2.2
      some ((p1.1, p2.1), db2)
  | _, _ => none

/-! ### Concrete fixtures (the sample data of the spec's scenario) -/

/-- The provider identity of the spec's concrete scenario. -/
def embUser : SessionUser := { id := 2, code := "EMB000001", role := "embasa" }

/-- The requester identity of the spec's concrete scenario. -/
def sacUser : SessionUser := { id := 3, code := "SAC000001", role := "sac" }

/-- The admin identity of the spec's concrete scenario. -/
def admUser : SessionUser := { id := 1, code := "ADM123456", role := "admin" }

/-- The availability of the spec's concrete scenario. -/
def avail1 : Availability :=
  { id := 1, date := "2024-06-10", startTime := "08:00", endTime := "10:00",
    capacity := 1, remainingSlots := 1, createdBy := "EMB000001", createdAt := 0 }

/-- The empty store. -/
def dbEmpty : DB :=
  { accessCodes := [], availabilities := [], bookings := [],
    nextAccessCodeId := 1, nextAvailabilityId := 1, nextBookingId := 1, now := 0 }

/-- A store holding `avail1` only. -/
def dbOneSlot : DB :=
  { dbEmpty with availabilities := [avail1], nextAvailabilityId := 2, now := 1 }

/-- `avail1` with its slots used up. -/
def avail1Empty : Availability := { avail1 with remainingSlots := 0 }

/-- A store where `avail1` has no remaining slots. -/
def dbExhausted : DB :=
  { dbEmpty with
    availabilities := [avail1Empty]
    nextAvailabilityId := 2
    now := 1 }

/-- The booking request of the spec's concrete scenario (a body of the
shape `insertBookingSchema` accepts), with a chosen `status` field. -/
def bookingBodyW (status : Option String) : InsertBooking :=
  { availabilityId := 1, clientName := "Maria", clientDocument := none,
    clientPhone := none, serviceNumber := "SS-42", timeSlot := "08:00",
    comments := none, createdBy := "SAC000001", status := status }

/-- The same request as an `InsertBooking` with the requester's code. -/
def insBookW (status : Option String) : InsertBooking :=
  bodyToInsert (bookingBodyW status) "SAC000001"

/-- The booking row that the scenario's successful request persists. -/
def bookingW1 : Booking := (tursoInsertBookingRow dbOneSlot (insBookW none)).1

/-- An availability-creation request body with the given capacity and
times. -/
def availBodyW (capacity : Option Int) (st et : String) : AvailabilityBody :=
  { date := some "2024-06-10", dateParses := true,
    startTime := some st, endTime := some et, capacity := capacity }

/-- The availability row created by the scenario's request (capacity 1,
08:00 to 10:00) against the empty store. -/
def availNew1 : Availability :=
  { id := 1, date := "2024-06-10", startTime := "08:00", endTime := "10:00",
    capacity := 1, remainingSlots := 1, createdBy := "EMB000001", createdAt := 0 }

/-- An `InsertAvailability` with the given times, capacity 1. -/
def insAvailW (st et : String) : InsertAvailability :=
  { date := "2024-06-10", startTime := st, endTime := et, capacity := 1,
    remainingSlots := some 1, createdBy := "EMB000001" }

/-- The availability row produced by a capacity `-1` request against the
empty store. -/
def availNeg1 : Availability :=
  { id := 1, date := "2024-06-10", startTime := "08:00", endTime := "10:00",
    capacity := -1, remainingSlots := -1, createdBy := "EMB000001", createdAt := 0 }

/-- A May availability. -/
def availMay : Availability :=
  { id := 2, date := "2024-05-01", startTime := "09:00", endTime := "11:00",
    capacity := 1, remainingSlots := 1, createdBy := "EMB000001", createdAt := 1 }

/-- A second June availability, earlier in the month. -/
def availJun1 : Availability :=
  { id := 3, date := "2024-06-01", startTime := "10:00", endTime := "12:00",
    capacity := 2, remainingSlots := 2, createdBy := "EMB000001", createdAt := 2 }

/-- A store with June and May availabilities, stored out of order. -/
def dbMonth : DB :=
  { dbEmpty with
    availabilities := [avail1, availMay, availJun1]
    nextAvailabilityId := 4
    now := 3 }

/-- A stored requester access code. -/
def sacCodeRow : AccessCode :=
  { id := 3, code := "SAC000001", role := "sac", location := "", active := true,
    createdAt := 0 }

/-- A store holding `sacCodeRow` only. -/
def dbCodes : DB := { dbEmpty with accessCodes := [sacCodeRow], nextAccessCodeId := 4 }

instance {e a : Type} [DecidableEq e] [DecidableEq a] : DecidableEq (Except e a) :=
  fun x y =>
    match x, y with
    | .ok u, .ok v =>
      if h : u = v then isTrue (by rw [h]) else isFalse (by intro hq; cases hq; exact h rfl)
    | .error u, .error v =>
      if h : u = v then isTrue (by rw [h]) else isFalse (by intro hq; cases hq; exact h rfl)
    | .ok _, .error _ => isFalse (by intro hq; cases hq)
    | .error _, .ok _ => isFalse (by intro hq; cases hq)

/-- The row list after replacing row `c` by its deactivated copy (the
`map` built by both storages' deactivation paths). -/
def deactivateRows (l : List AccessCode) (c : AccessCode) : List AccessCode :=
  l.map (fun r => if r.id == c.id then { c with active := false } else r)

/-- The `PATCH` body `{ active: false }` used to deactivate a code. -/
def deactivateUpdate : AccessCodeUpdates :=
  { code := none, role := none, location := none, active := some false }

/-- `sacCodeRow` after deactivation. -/
def sacCodeRowOff : AccessCode := { sacCodeRow with active := false }

/-- `dbCodes` after the requester code was deactivated. -/
def dbCodesOff : DB := { dbCodes with accessCodes := [sacCodeRowOff] }

/-- Every stored availability has non-negative remaining slots. -/
def NonNegDB (db : DB) : Prop := ∀ a ∈ db.availabilities, 0 ≤ a.remainingSlots

/-- Every stored availability id is below the AUTOINCREMENT counter. -/
def IdsBounded (db : DB) : Prop :=
  ∀ a ∈ db.availabilities, a.id < db.nextAvailabilityId

/-- The per-operation hypotheses of the amended invariant: created
capacities are at least 1 (the validation the spec claims), and an
administrative update never writes a negative `remainingSlots`. -/
def OpOK : Op → Prop
  | .createAvail _ body => ∀ c, body.capacity = some c → 1 ≤ c
  | .updateAvail _ u => ∀ v, u.remainingSlots = some v → 0 ≤ v
  | _ => True

/-- Whether the operation is the storage-level administrative update. -/
def isAdminUpdate : Op → Prop
  | .updateAvail _ _ => True
  | _ => False

/-- A two-operation sequence: create the scenario's availability, then
book it. -/
def opsW : List Op :=
  [Op.createAvail embUser (availBodyW (some 1) "08:00" "10:00"),
   Op.createBooking sacUser (bookingBodyW none)]

/-! ### Helper lemmas on the row-list primitives -/

theorem find?_set_self (l : List Availability) (id : Nat) (a' : Availability)
    (h' : a'.id = id) (hfound : (l.find? (fun a => a.id == id)).isSome) :
    (l.map (fun r => if r.id == id then a' else r)).find? (fun a => a.id == id) =
      some a' := by
  have hpred : ((fun a : Availability => a.id == id) ∘
      (fun r => if r.id == id then a' else r)) = (fun a => a.id == id) := by
    funext r
    by_cases hr : r.id = id
    · simp [Function.comp, hr, h']
    · simp [Function.comp, hr]
  rw [List.find?_map, hpred]
  rcases Option.isSome_iff_exists.mp hfound with ⟨r0, hr0⟩
  have : r0.id = id := by simpa using List.find?_some hr0
  simp [hr0, this]

theorem find?_set_other (l : List Availability) (id id' : Nat) (hne : id' ≠ id)
    (a' : Availability) (h' : a'.id = id) :
    (l.map (fun r => if r.id == id then a' else r)).find? (fun a => a.id == id') =
      l.find? (fun a => a.id == id') := by
  have hne' : id ≠ id' := Ne.symm hne
  have hpred : ((fun a : Availability => a.id == id') ∘
      (fun r => if r.id == id then a' else r)) = (fun a => a.id == id') := by
    funext r
    by_cases hr : r.id = id
    · simp [Function.comp, hr, h', beq_eq_false_iff_ne.mpr hne',
        beq_eq_false_iff_ne.mpr (hr ▸ hne' : r.id ≠ id')]
    · simp [Function.comp, hr]
  rw [List.find?_map, hpred]
  cases hfind : l.find? (fun a => a.id == id') with
  | none => simp
  | some r0 =>
    have hid : r0.id = id' := by simpa using List.find?_some hfind
    have : r0.id ≠ id := hid ▸ hne
    simp [this]

theorem mem_set_cases {b : Availability} (l : List Availability) (id : Nat)
    (a' : Availability) (h : b ∈ l.map (fun r => if r.id == id then a' else r)) :
    b = a' ∨ b ∈ l := by
  rcases List.mem_map.mp h with ⟨r, hr, hb⟩
  by_cases hid : r.id = id
  · have : (r.id == id) = true := by simpa using hid
    rw [this] at hb
    simp at hb
    exact Or.inl hb.symm
  · have : (r.id == id) = false := by simpa using hid
    rw [this] at hb
    simp at hb
    exact Or.inr (hb ▸ hr)

/-! ### C1 -/

/-- C1: a `createBooking` request whose referenced availability exists
with `remainingSlots ≤ 0` fails with the slots-exhausted rejection and
leaves the state (hence the booking table and the availability) untouched,
and a successful request implies the availability had `remainingSlots > 0`
when it was fetched. -/
theorem c1_booking_requires_slots (db : DB) (user : SessionUser)
    (body : InsertBooking) (a : Availability) (hrole : user.role = "sac")
    (hget : tursoGetAvailability db body.availabilityId = some a) :
    (a.remainingSlots ≤ 0 →
      apiCreateBooking db user body = (.error .slotsExhausted, db)) ∧
    (∀ bk db', apiCreateBooking db user body = (.ok bk, db') →
      0 < a.remainingSlots) := by
  unfold apiCreateBooking
  rw [hrole, hget]
  constructor
  · intro h; simp [h]
  · intro bk db' hok
    by_contra hneg
    push_neg at hneg
    simp [hneg] at hok

/-- Witness for `c1_booking_requires_slots` at the spec's scenario with
the slots already exhausted. -/
theorem c1_booking_requires_slots_witness :
    apiCreateBooking dbExhausted sacUser (bookingBodyW none) =
      (.error .slotsExhausted, dbExhausted) :=
  (c1_booking_requires_slots dbExhausted sacUser (bookingBodyW none)
    { avail1 with remainingSlots := 0 } rfl (by decide)).1 (by decide)

/-- Evaluation of a successful `TursoStorage.createBooking`: the booking
row is inserted and the availability row is replaced by the decremented
copy. -/
theorem tursoCreateBooking_ok (db : DB) (ins : InsertBooking) (a : Availability)
    (hget : tursoGetAvailability db ins.availabilityId = some a)
    (ha : ¬a.remainingSlots ≤ 0) :
    tursoCreateBooking false db ins =
      .ok ((tursoInsertBookingRow db ins).1,
        { (tursoInsertBookingRow db ins).2 with
          availabilities := db.availabilities.map
            (fun r => if r.id == ins.availabilityId
              then { a with remainingSlots := a.remainingSlots - 1 } else r) }) := by
  have hget2 : List.find? (fun x => x.id == ins.availabilityId)
      (tursoInsertBookingRow db ins).2.availabilities = some a := hget
  unfold tursoCreateBooking tursoUpdateAvailabilityF tursoUpdateAvailability
  rw [hget]
  simp only [if_neg ha, slotsOnlyUpdate, hget2]
  rfl

/-! ### C2 -/

/-- C2 counterexample: a `createBooking` request that supplies
`status = "cancelled"` succeeds, and the one booking it persists has
status `"cancelled"`, not `"confirmed"` (while `createdBy` is still the
caller's code and the slots are decremented). -/
theorem c2_status_passthrough_counterexample :
    ((apiCreateBooking dbOneSlot sacUser (bookingBodyW (some "cancelled"))).1.isOk
      = true) ∧
    ((apiCreateBooking dbOneSlot sacUser
        (bookingBodyW (some "cancelled"))).2.bookings.map Booking.status
      = ["cancelled"]) ∧
    ((apiCreateBooking dbOneSlot sacUser
        (bookingBodyW (some "cancelled"))).2.bookings.map Booking.createdBy
      = ["SAC000001"]) := by
  refine ⟨?_, ?_, ?_⟩ <;> decide

/-- C2 as amended: a successful `createBooking` call persists exactly one
booking, with `createdBy` the caller's code and status the requested
status under JS truthiness (so `"confirmed"` whenever the request carries
no non-empty status, as every normal client request does); the referenced
availability existed with `remainingSlots > 0` and is decremented by
exactly 1, every other availability and the access codes are untouched. -/
theorem c2_booking_success_effects (db : DB) (user : SessionUser)
    (body : InsertBooking) (bk : Booking) (db' : DB) (hrole : user.role = "sac")
    (hok : apiCreateBooking db user body = (.ok bk, db')) :
    db'.bookings = db.bookings ++ [bk] ∧
    bk.createdBy = user.code ∧
    bk.status = jsOrStr body.status "confirmed" ∧
    db'.accessCodes = db.accessCodes ∧
    ∃ a, tursoGetAvailability db body.availabilityId = some a ∧
      0 < a.remainingSlots ∧
      tursoGetAvailability db' body.availabilityId =
        some { a with remainingSlots := a.remainingSlots - 1 } ∧
      ∀ id', id' ≠ body.availabilityId →
        tursoGetAvailability db' id' = tursoGetAvailability db id' := by
  unfold apiCreateBooking at hok
  rw [hrole] at hok
  simp only [ne_eq, not_true_eq_false, if_false, ite_false] at hok
  cases hget : tursoGetAvailability db body.availabilityId with
  | none => rw [hget] at hok; simp at hok
  | some a =>
    rw [hget] at hok
    dsimp only at hok
    by_cases ha : a.remainingSlots ≤ 0
    · rw [if_pos ha] at hok; simp at hok
    · rw [if_neg ha] at hok
      have hget' : tursoGetAvailability db
          (bodyToInsert body user.code).availabilityId = some a := hget
      rw [tursoCreateBooking_ok db (bodyToInsert body user.code) a hget' ha] at hok
      dsimp only at hok
      have h1 := congrArg Prod.fst hok
      have h2 := congrArg Prod.snd hok
      dsimp only at h1 h2
      have hbk : (tursoInsertBookingRow db (bodyToInsert body user.code)).1 = bk :=
        Except.ok.inj h1
      have haid : a.id = body.availabilityId := by
        simpa using List.find?_some hget
      refine ⟨?_, ?_, ?_, ?_, a, rfl, by omega, ?_, ?_⟩
      · rw [← h2, ← hbk]; rfl
      · rw [← hbk]; rfl
      · rw [← hbk]; rfl
      · rw [← h2]; rfl
      · rw [← h2]
        exact find?_set_self db.availabilities body.availabilityId _ haid
          (by rw [show List.find? (fun a => a.id == body.availabilityId) db.availabilities = some a from hget]; rfl)
      · intro id' hne
        rw [← h2]
        exact find?_set_other db.availabilities body.availabilityId id' hne _ haid

/-- Witness for `c2_booking_success_effects` at the spec's concrete
scenario (no status supplied, one slot available). -/
theorem c2_booking_success_effects_witness :
    (apiCreateBooking dbOneSlot sacUser (bookingBodyW none)).2.bookings =
        dbOneSlot.bookings ++ [bookingW1] ∧
    bookingW1.createdBy = sacUser.code ∧
    bookingW1.status = jsOrStr (bookingBodyW none).status "confirmed" := by
  have h := c2_booking_success_effects dbOneSlot sacUser (bookingBodyW none)
    bookingW1 (apiCreateBooking dbOneSlot sacUser (bookingBodyW none)).2
    rfl (by rfl)
  exact ⟨h.1, h.2.1, h.2.2.1⟩

/-- A successful `TursoStorage.createAvailability` call returns exactly
the inserted row and the state extended with it. -/
theorem tursoCreateAvailability_ok (db : DB) (ins : InsertAvailability)
    (a : Availability) (db2 : DB)
    (h : tursoCreateAvailability db ins = .ok (a, db2)) :
    a = (tursoInsertAvailabilityRow db ins).1 ∧
    db2 = (tursoInsertAvailabilityRow db ins).2 := by
  unfold tursoCreateAvailability at h
  repeat' split at h
  all_goals
    first
    | (have hinj := Except.ok.inj h
       exact ⟨(congrArg Prod.fst hinj).symm, (congrArg Prod.snd hinj).symm⟩)
    | exact absurd h (by simp)

/-! ### C8 -/

/-- C8: every successful `createAvailability` request stores exactly one
new availability row whose `remainingSlots` equals its `capacity`, which
is the requested capacity. -/
theorem c8_remaining_starts_at_capacity (db : DB) (user : SessionUser)
    (body : AvailabilityBody) (a : Availability) (db' : DB)
    (hok : apiCreateAvailability db user body = (.ok a, db')) :
    body.capacity = some a.capacity ∧
    a.remainingSlots = a.capacity ∧
    db'.availabilities = db.availabilities ++ [a] := by
  unfold apiCreateAvailability at hok
  repeat' split at hok
  all_goals
    first
    | (rename_i heq
       have h1 : _ = a := Except.ok.inj (congrArg Prod.fst hok)
       have h2 : _ = db' := congrArg Prod.snd hok
       obtain ⟨ha, hdb2⟩ := tursoCreateAvailability_ok _ _ _ _ heq
       subst h1
       refine ⟨?_, ?_, ?_⟩
       · rw [ha]; assumption
       · rw [ha]; simp [tursoInsertAvailabilityRow, jsOrOptInt]
       · rw [← h2, hdb2, ha]; rfl)
    | (exact absurd (congrArg Prod.fst hok) (by simp))

/-- Witness for `c8_remaining_starts_at_capacity`: the scenario's
capacity-1 availability. -/
theorem c8_remaining_starts_at_capacity_witness :
    (availBodyW (some 1) "08:00" "10:00").capacity = some availNew1.capacity ∧
    availNew1.remainingSlots = availNew1.capacity ∧
    (apiCreateAvailability dbEmpty embUser
        (availBodyW (some 1) "08:00" "10:00")).2.availabilities =
      dbEmpty.availabilities ++ [availNew1] :=
  c8_remaining_starts_at_capacity dbEmpty embUser
    (availBodyW (some 1) "08:00" "10:00") availNew1
    (apiCreateAvailability dbEmpty embUser (availBodyW (some 1) "08:00" "10:00")).2
    (by rfl)

/-! ### C6 -/

/-- C6 counterexample: a request whose `startTime` (10:00) is after its
`endTime` (09:00) is accepted by `createAvailability` instead of failing
with `InvalidTimeRange` (both times parse, so the reversed order is
visible to the validation). -/
theorem c6_reversed_range_counterexample :
    ((tursoCreateAvailability dbEmpty (insAvailW "10:00" "09:00")).isOk = true) ∧
    timeTotalMinutes "10:00" = some 600 ∧
    timeTotalMinutes "09:00" = some 540 := by
  refine ⟨?_, ?_, ?_⟩ <;> decide

/-- C6 as amended: for requests whose times parse,
`createAvailability` fails with `InvalidTimeRange` exactly when
`endTime − startTime > 120` minutes, and otherwise inserts the row; the
check `startTime < endTime` is not performed, so reversed ranges pass. -/
theorem c6_time_range_check (db : DB) (ins : InsertAvailability) (s e : Int)
    (hs : timeTotalMinutes ins.startTime = some s)
    (he : timeTotalMinutes ins.endTime = some e) :
    (e - s > 120 → tursoCreateAvailability db ins = .error .invalidTimeRange) ∧
    (¬e - s > 120 →
      tursoCreateAvailability db ins = .ok (tursoInsertAvailabilityRow db ins)) := by
  unfold tursoCreateAvailability
  rw [hs, he]
  constructor <;> intro h <;> simp [h]

/-- Witness for `c6_time_range_check`: 09:00 to 12:00 (180 minutes) is
rejected with `InvalidTimeRange`, 09:00 to 10:30 (90 minutes) is
accepted, as the spec's example says. -/
theorem c6_time_range_check_witness :
    tursoCreateAvailability dbEmpty (insAvailW "09:00" "12:00") =
        .error .invalidTimeRange ∧
    tursoCreateAvailability dbEmpty (insAvailW "09:00" "10:30") =
        .ok (tursoInsertAvailabilityRow dbEmpty (insAvailW "09:00" "10:30")) :=
  ⟨(c6_time_range_check dbEmpty (insAvailW "09:00" "12:00") 540 720
      (by decide) (by decide)).1 (by decide),
   (c6_time_range_check dbEmpty (insAvailW "09:00" "10:30") 540 630
      (by decide) (by decide)).2 (by decide)⟩

/-! ### C7 -/

/-- C7 counterexample: a request with `capacity = -1` (which is `< 1`) is
accepted by the availability-creation route instead of failing with
`InvalidCapacity`, and the stored row carries the negative capacity. -/
theorem c7_negative_capacity_counterexample :
    ((apiCreateAvailability dbEmpty embUser
        (availBodyW (some (-1)) "08:00" "10:00")).1.isOk = true) ∧
    ((apiCreateAvailability dbEmpty embUser
        (availBodyW (some (-1)) "08:00" "10:00")).2.availabilities.map
          Availability.remainingSlots = [-1]) := by
  refine ⟨?_, ?_⟩ <;> decide

/-- C7 as amended: with the other field validations passing, the route
fails with the invalid-capacity rejection exactly when the capacity is
absent (or `NaN`) or equals `0` (JS falsiness); every other value,
including every negative integer, passes the capacity check. -/
theorem c7_capacity_check (db : DB) (user : SessionUser) (ds st et : String)
    (dp : Bool) (cap : Option Int) (hrole : user.role = "embasa")
    (hds : ds ≠ "") (hst : st ≠ "") (het : et ≠ "") :
    (apiCreateAvailability db user
        { date := some ds, dateParses := dp, startTime := some st,
          endTime := some et, capacity := cap }).1 = .error .invalidCapacity ↔
      (cap = none ∨ cap = some 0) := by
  unfold apiCreateAvailability
  rw [hrole]
  cases cap with
  | none => simp [hds, hst, het]
  | some c =>
    by_cases hc : c = 0
    · simp [hds, hst, het, hc]
    · cases dp with
      | false => simp [hds, hst, het, hc]
      | true =>
        cases htc : tursoCreateAvailability db
            { date := ds, startTime := st, endTime := et, capacity := c,
              remainingSlots := some c, createdBy := user.code } with
        | ok p => simp [hds, hst, het, hc, htc]
        | error e => simp [hds, hst, het, hc, htc]

/-- Witness for `c7_capacity_check`: an absent capacity is rejected as
invalid. -/
theorem c7_capacity_check_witness :
    (apiCreateAvailability dbEmpty embUser
        (availBodyW none "08:00" "10:00")).1 = .error .invalidCapacity :=
  (c7_capacity_check dbEmpty embUser "2024-06-10" "08:00" "10:00" true none
    rfl (by decide) (by decide) (by decide)).mpr (Or.inl rfl)

/-! ### C4 -/

/-- C4: under the interleaving in which both requests read the
availability before either writes (every step being one of the source's
awaited statements), two concurrent `createBooking` calls against an
availability with `remainingSlots = 1` BOTH succeed: two bookings are
persisted against the single slot and the final `remainingSlots` is `0`,
instead of exactly one success and one `SlotsExhausted` failure.  The
check-then-decrement of `TursoStorage.createBooking` is not serialized
(no conditional update, no per-availability lock), so the spec's
concurrency guarantee does not hold. -/
theorem c4_race_oversells_slot :
    avail1.remainingSlots = 1 ∧
    ((raceTwoBookings dbOneSlot (insBookW none) (insBookW none)).isSome = true) ∧
    ((raceTwoBookings dbOneSlot (insBookW none) (insBookW none)).map
        (fun p => p.2.bookings.length) = some 2) ∧
    ((raceTwoBookings dbOneSlot (insBookW none) (insBookW none)).map
        (fun p => p.2.bookings.map Booking.availabilityId) = some [1, 1]) ∧
    ((raceTwoBookings dbOneSlot (insBookW none) (insBookW none)).map
        (fun p => (tursoGetAvailability p.2 1).map Availability.remainingSlots) =
      some (some 0)) := by
  refine ⟨?_, ?_, ?_, ?_, ?_⟩ <;> decide

/-! ### C5 -/

/-- C5: when the availability `UPDATE` of step 4 fails after the booking
`INSERT` of step 3 succeeded, `TursoStorage.createBooking` still returns
the booking as a success — `updateAvailability` catches the statement
error and returns `undefined`, and `createBooking` ignores that result —
leaving the booking persisted with the availability not decremented and
no error surfaced to the caller. -/
theorem c5_update_failure_not_surfaced :
    ((tursoCreateBooking true dbOneSlot (insBookW none)).isOk = true) ∧
    ((tursoCreateBooking true dbOneSlot (insBookW none)).toOption.map
        (fun p => p.2.bookings.length) = some 1) ∧
    ((tursoCreateBooking true dbOneSlot (insBookW none)).toOption.map
        (fun p => (tursoGetAvailability p.2 1).map Availability.remainingSlots) =
      some (some 1)) := by
  refine ⟨?_, ?_, ?_⟩ <;> decide

/-! ### C9 -/

/-- In a list whose entries have pairwise distinct codes, two members
sharing a code are the same row. -/
theorem codes_unique {l : List AccessCode}
    (hp : l.Pairwise (fun x y => x.code ≠ y.code)) {r c : AccessCode}
    (hr : r ∈ l) (hc : c ∈ l) (h : r.code = c.code) : r = c := by
  induction l with
  | nil => cases hr
  | cons x xs ih =>
    have hp' := List.pairwise_cons.mp hp
    rcases List.mem_cons.mp hr with hr1 | hr1 <;>
      rcases List.mem_cons.mp hc with hc1 | hc1
    · rw [hr1, hc1]
    · exact absurd h (hr1 ▸ hp'.1 c hc1)
    · exact absurd h.symm (hc1 ▸ hp'.1 r hr1)
    · exact ih hp'.2 hr1 hc1

/-- After replacing row `c` by its deactivated copy, the active-only
lookup by `c.code` finds nothing. -/
theorem deactivated_lookup_none (l : List AccessCode) (c : AccessCode)
    (hmem : c ∈ l) (hp : l.Pairwise (fun x y => x.code ≠ y.code)) :
    (deactivateRows l c).find? (fun x => x.code == c.code && x.active) = none := by
  apply List.find?_eq_none.mpr
  intro x hx
  rcases List.mem_map.mp hx with ⟨r, hr, hxr⟩
  by_cases hid : r.id = c.id
  · have hb : (r.id == c.id) = true := by simpa using hid
    rw [hb, if_pos rfl] at hxr
    rw [← hxr]
    simp
  · have hb : (r.id == c.id) = false := by simpa using hid
    rw [hb] at hxr
    rw [if_neg (by simp)] at hxr
    rw [← hxr]
    simp only [Bool.and_eq_true, beq_iff_eq, not_and]
    intro hcode
    exact absurd (congrArg AccessCode.id (codes_unique hp hr hmem hcode)) hid

/-- C9 counterexample: the system's delete-access-code operation (the
`DELETE /api/access-codes/:id` route backed by
`TursoStorage.deleteAccessCode`) hard-deletes the row: afterwards
`authenticate` with the code does fail, but the row no longer exists and
the admin listing no longer returns it, contradicting the claim's "the
AccessCode row still exists and is returned by the admin listing
(deactivation is a soft delete, never a hard delete)". -/
theorem c9_hard_delete_counterexample :
    ((apiDeleteAccessCode dbCodes admUser 3).1.isOk = true) ∧
    ((apiDeleteAccessCode dbCodes admUser 3).2.accessCodes = []) ∧
    (tursoListAccessCodes (apiDeleteAccessCode dbCodes admUser 3).2 = []) ∧
    (apiLogin (apiDeleteAccessCode dbCodes admUser 3).2 "SAC000001" =
      .error .invalidCredential) := by
  refine ⟨?_, ?_, ?_, ?_⟩ <;> decide

/-- C9 as amended: deactivating a code by setting `active = false`
(the update route) makes every subsequent `authenticate` with that code
fail with the invalid-credential rejection while the row still exists and
is returned by the admin listing; the in-memory storage's delete is such
a soft delete; but the Turso storage's delete is a hard row delete (see
the counterexample), after which authenticate also fails. -/
theorem c9_deactivated_code_rejected (db : DB) (c : AccessCode)
    (hcode : c.code ≠ "")
    (hfind : db.accessCodes.find? (fun x => x.id == c.id) = some c)
    (hp : db.accessCodes.Pairwise (fun x y => x.code ≠ y.code)) :
    ∀ c2 db', tursoUpdateAccessCode db c.id deactivateUpdate = some (c2, db') →
      c2 = { c with active := false } ∧
      apiLogin db' c.code = .error .invalidCredential ∧
      c2 ∈ tursoListAccessCodes db' ∧
      (memDeleteAccessCode db c.id).1 = true ∧
      c2 ∈ (memDeleteAccessCode db c.id).2.accessCodes ∧
      memGetAccessCode (memDeleteAccessCode db c.id).2 c.code = none := by
  intro c2 db' hok
  have hmem : c ∈ db.accessCodes := List.mem_of_find?_eq_some hfind
  have hnone := deactivated_lookup_none db.accessCodes c hmem hp
  have hmapmem : { c with active := false } ∈ deactivateRows db.accessCodes c :=
    List.mem_map.mpr ⟨c, hmem, by simp⟩
  have hcompute : tursoUpdateAccessCode db c.id deactivateUpdate =
      some ({ c with active := false },
        { db with accessCodes := deactivateRows db.accessCodes c }) := by
    unfold tursoUpdateAccessCode deactivateRows
    rw [hfind]
    rfl
  rw [hcompute] at hok
  have hc2 : ({ c with active := false } : AccessCode) = c2 :=
    congrArg Prod.fst (Option.some.inj hok)
  have hdb : ({ db with accessCodes := deactivateRows db.accessCodes c } : DB) = db' :=
    congrArg Prod.snd (Option.some.inj hok)
  have hmemdel : memDeleteAccessCode db c.id =
      (true, { db with accessCodes := deactivateRows db.accessCodes c }) := by
    unfold memDeleteAccessCode deactivateRows
    rw [hfind]
  refine ⟨hc2.symm, ?_, ?_, ?_, ?_, ?_⟩
  · unfold apiLogin tursoGetAccessCode
    rw [if_neg hcode, ← hdb]
    simp only [hnone]
  · rw [← hc2]
    unfold tursoListAccessCodes
    rw [← hdb]
    exact ((List.perm_insertionSort accessCodeNewest _).mem_iff).mpr hmapmem
  · rw [hmemdel]
  · rw [← hc2, hmemdel]
    exact hmapmem
  · unfold memGetAccessCode
    rw [hmemdel]
    exact hnone

/-- Witness for `c9_deactivated_code_rejected` at the one-code store. -/
theorem c9_deactivated_code_rejected_witness :
    apiLogin dbCodesOff "SAC000001" = .error .invalidCredential ∧
    sacCodeRowOff ∈ tursoListAccessCodes dbCodesOff ∧
    sacCodeRowOff ∈ (memDeleteAccessCode dbCodes 3).2.accessCodes := by
  have h := c9_deactivated_code_rejected dbCodes sacCodeRow (by decide)
    (by decide) (by unfold dbCodes dbEmpty; simp) sacCodeRowOff dbCodesOff (by rfl)
  exact ⟨h.2.1, h.2.2.1, h.2.2.2.2.1⟩

/-! ### C3 -/

theorem find?_append_of_some {p : Availability → Bool} {l1 l2 : List Availability}
    {x : Availability} (h : l1.find? p = some x) : (l1 ++ l2).find? p = some x := by
  induction l1 with
  | nil => simp [List.find?] at h
  | cons r rs ih =>
    cases hr : p r with
    | true => simp_all [List.find?_cons]
    | false => simp_all [List.find?_cons]

theorem find?_append_of_none {p : Availability → Bool} {l1 l2 : List Availability}
    (h : l1.find? p = none) : (l1 ++ l2).find? p = l2.find? p := by
  induction l1 with
  | nil => simp
  | cons r rs ih =>
    cases hr : p r with
    | true => simp_all [List.find?_cons]
    | false => simp_all [List.find?_cons]

theorem find?_filterOut_self (l : List Availability) (did : Nat) :
    (l.filter (fun a => !(a.id == did))).find? (fun a => a.id == did) = none := by
  apply List.find?_eq_none.mpr
  intro x hx
  have := List.of_mem_filter hx
  simpa using this

theorem find?_filterOut_other (l : List Availability) (did id : Nat)
    (hne : id ≠ did) :
    (l.filter (fun a => !(a.id == did))).find? (fun a => a.id == id) =
      l.find? (fun a => a.id == id) := by
  induction l with
  | nil => simp
  | cons r rs ih =>
    by_cases hr : r.id = did
    · have h2 : (r.id == id) = false := by
        rw [hr]; exact beq_eq_false_iff_ne.mpr (Ne.symm hne)
      rw [show List.filter (fun a => !(a.id == did)) (r :: rs) =
            List.filter (fun a => !(a.id == did)) rs from by
          simp [List.filter_cons, hr]]
      rw [ih, List.find?_cons_of_neg _ (by simp [h2])]
    · rw [show List.filter (fun a => !(a.id == did)) (r :: rs) =
            r :: List.filter (fun a => !(a.id == did)) rs from by
          simp [List.filter_cons, hr]]
      by_cases hq : r.id = id
      · rw [List.find?_cons_of_pos _ (by simpa using hq),
          List.find?_cons_of_pos _ (by simpa using hq)]
      · rw [List.find?_cons_of_neg _ (by simpa using hq),
          List.find?_cons_of_neg _ (by simpa using hq)]
        exact ih

/-- Success inversion for `TursoStorage.createBooking`: the availability
existed with a positive count and the resulting table is the decremented
replacement. -/
theorem tursoCreateBooking_ok_inv (db : DB) (b : InsertBooking) (bk : Booking)
    (db2 : DB) (h : tursoCreateBooking false db b = .ok (bk, db2)) :
    ∃ a, tursoGetAvailability db b.availabilityId = some a ∧
      0 < a.remainingSlots ∧
      db2.availabilities = db.availabilities.map
        (fun r => if r.id == b.availabilityId
          then { a with remainingSlots := a.remainingSlots - 1 } else r) ∧
      db2.nextAvailabilityId = db.nextAvailabilityId := by
  cases hget : tursoGetAvailability db b.availabilityId with
  | none =>
    unfold tursoCreateBooking at h
    rw [hget] at h
    exact absurd h (by simp)
  | some a =>
    by_cases ha : a.remainingSlots ≤ 0
    · unfold tursoCreateBooking at h
      rw [hget] at h
      dsimp only at h
      rw [if_pos ha] at h
      exact absurd h (by simp)
    · rw [tursoCreateBooking_ok db b a hget ha] at h
      have h2 := Except.ok.inj h
      injection h2 with hbk hdb
      subst hbk
      subst hdb
      exact ⟨a, rfl, by omega, rfl, rfl⟩

/-- Success inversion for `TursoStorage.updateAvailability`. -/
theorem tursoUpdateAvailability_some_inv (db : DB) (id : Nat)
    (u : AvailabilityUpdates) (a2 : Availability) (db2 : DB)
    (h : tursoUpdateAvailability db id u = some (a2, db2)) :
    ∃ a, db.availabilities.find? (fun x => x.id == id) = some a ∧
      a2 = { a with
        date := u.date.getD a.date
        startTime := u.startTime.getD a.startTime
        endTime := u.endTime.getD a.endTime
        capacity := u.capacity.getD a.capacity
        remainingSlots := u.remainingSlots.getD a.remainingSlots } ∧
      db2.availabilities = db.availabilities.map
        (fun r => if r.id == id then a2 else r) ∧
      db2.nextAvailabilityId = db.nextAvailabilityId := by
  unfold tursoUpdateAvailability at h
  repeat' split at h
  · exact absurd h (by simp)
  · exact absurd h (by simp)
  · rename_i row hfind
    have h2 := Option.some.inj h
    injection h2 with ha2 hdb2
    subst ha2
    subst hdb2
    exact ⟨row, hfind, rfl, rfl, rfl⟩

/-- `jsOrOptInt (some v) v = v`. -/
theorem jsOrOptInt_some_self (v : Int) : jsOrOptInt (some v) v = v := by
  unfold jsOrOptInt
  exact ite_self v

/-- `NonNegDB` is preserved by every `OpOK` operation. -/
theorem nonneg_applyOp (db : DB) (op : Op) (hnn : NonNegDB db) (hok : OpOK op) :
    NonNegDB (applyOp db op) := by
  cases op with
  | createAvail user body =>
    show NonNegDB (apiCreateAvailability db user body).2
    unfold apiCreateAvailability
    repeat' split
    all_goals try exact hnn
    rename_i res arow db2 heq
    obtain ⟨ha, hdb2⟩ := tursoCreateAvailability_ok _ _ _ _ heq
    intro x hx
    have hx2 : x ∈ db2.availabilities := hx
    rw [hdb2] at hx2
    rcases List.mem_append.mp hx2 with hxx | hxx
    · exact hnn x hxx
    · have hcap := hok _ (show body.capacity = some _ from by assumption)
      rw [List.mem_singleton.mp hxx]
      show (0 : Int) ≤ _
      simp only [tursoInsertAvailabilityRow, jsOrOptInt, ite_self]
      omega
  | createBooking user body =>
    show NonNegDB (apiCreateBooking db user body).2
    unfold apiCreateBooking
    repeat' split
    all_goals try exact hnn
    rename_i bk2 db2 heq
    obtain ⟨a, hget, hpos, havail, _⟩ := tursoCreateBooking_ok_inv _ _ _ _ heq
    intro x hx
    have hx2 : x ∈ db2.availabilities := hx
    rw [havail] at hx2
    rcases mem_set_cases _ _ _ hx2 with hx3 | hx3
    · rw [hx3]
      show (0 : Int) ≤ a.remainingSlots - 1
      omega
    · exact hnn x hx3
  | updateAvail id u =>
    show NonNegDB (match tursoUpdateAvailability db id u with
      | some p => p.2 | none => db)
    split
    · rename_i p heq
      obtain ⟨a2, db2⟩ := p
      obtain ⟨a, hfind, ha2, havail, _⟩ :=
        tursoUpdateAvailability_some_inv _ _ _ _ _ heq
      intro x hx
      have hx2 : x ∈ db2.availabilities := hx
      rw [havail] at hx2
      rcases mem_set_cases _ _ _ hx2 with hx3 | hx3
      · rw [hx3, ha2]
        show (0 : Int) ≤ u.remainingSlots.getD a.remainingSlots
        cases hu : u.remainingSlots with
        | none =>
          have := hnn a (List.mem_of_find?_eq_some hfind)
          simpa using this
        | some v => simpa using hok v hu
      · exact hnn x hx3
    · exact hnn
  | deleteAvail user id =>
    show NonNegDB (apiDeleteAvailability db user id).2
    unfold apiDeleteAvailability tursoDeleteAvailability
    dsimp only
    repeat' split
    all_goals try exact hnn
    intro x hx
    exact hnn x (List.mem_of_mem_filter hx)

/-- The state after an availability-creation request: unchanged, or
extended with the inserted row. -/
theorem createAvail_state_cases (db : DB) (user : SessionUser)
    (body : AvailabilityBody) :
    (apiCreateAvailability db user body).2 = db ∨
    ∃ ins, (apiCreateAvailability db user body).2 =
      (tursoInsertAvailabilityRow db ins).2 := by
  unfold apiCreateAvailability
  repeat' split
  all_goals try exact Or.inl rfl
  rename_i res arow db2 heq
  obtain ⟨-, hdb2⟩ := tursoCreateAvailability_ok _ _ _ _ heq
  exact Or.inr ⟨_, hdb2⟩

/-- The state after a booking request: unchanged, or with the referenced
availability decremented (and only the booking table otherwise touched). -/
theorem createBooking_state_cases (db : DB) (user : SessionUser)
    (body : InsertBooking) :
    (apiCreateBooking db user body).2 = db ∨
    ∃ a, tursoGetAvailability db body.availabilityId = some a ∧
      0 < a.remainingSlots ∧
      (apiCreateBooking db user body).2.availabilities =
        db.availabilities.map (fun r => if r.id == body.availabilityId
          then { a with remainingSlots := a.remainingSlots - 1 } else r) ∧
      (apiCreateBooking db user body).2.nextAvailabilityId =
        db.nextAvailabilityId := by
  unfold apiCreateBooking
  repeat' split
  all_goals try exact Or.inl rfl
  rename_i bk2 db2 heq
  obtain ⟨a, hget, hpos, havail, hnext⟩ := tursoCreateBooking_ok_inv _ _ _ _ heq
  exact Or.inr ⟨a, hget, hpos, havail, hnext⟩

/-- The state after an administrative update: unchanged, or with the
addressed row replaced. -/
theorem updateAvail_state_cases (db : DB) (uid : Nat) (u : AvailabilityUpdates) :
    applyOp db (.updateAvail uid u) = db ∨
    ∃ a2, a2.id = uid ∧
      (applyOp db (.updateAvail uid u)).availabilities =
        db.availabilities.map (fun r => if r.id == uid then a2 else r) ∧
      (applyOp db (.updateAvail uid u)).nextAvailabilityId =
        db.nextAvailabilityId ∧
      ∃ a, db.availabilities.find? (fun x => x.id == uid) = some a ∧
        a2.remainingSlots = u.remainingSlots.getD a.remainingSlots := by
  cases heq : tursoUpdateAvailability db uid u with
  | none =>
    left
    show (match tursoUpdateAvailability db uid u with
      | some q => q.2 | none => db) = db
    rw [heq]
  | some p =>
    obtain ⟨a2, db2⟩ := p
    obtain ⟨a, hfind, ha2, havail, hnext⟩ :=
      tursoUpdateAvailability_some_inv _ _ _ _ _ heq
    have happ : applyOp db (.updateAvail uid u) = db2 := by
      show (match tursoUpdateAvailability db uid u with
        | some q => q.2 | none => db) = db2
      rw [heq]
    right
    have haid : a.id = uid := by simpa using List.find?_some hfind
    refine ⟨a2, ?_, ?_, ?_, a, hfind, ?_⟩
    · rw [ha2]; exact haid
    · rw [happ]; exact havail
    · rw [happ]; exact hnext
    · rw [ha2]

/-- The state after a deletion request: unchanged, or with the addressed
row filtered out. -/
theorem deleteAvail_state_cases (db : DB) (user : SessionUser) (did : Nat) :
    (apiDeleteAvailability db user did).2 = db ∨
    ((apiDeleteAvailability db user did).2.availabilities =
        db.availabilities.filter (fun a => !(a.id == did)) ∧
      (apiDeleteAvailability db user did).2.nextAvailabilityId =
        db.nextAvailabilityId) := by
  unfold apiDeleteAvailability tursoDeleteAvailability
  dsimp only
  repeat' split
  all_goals first
    | exact Or.inl rfl
    | exact Or.inr ⟨rfl, rfl⟩

/-- `IdsBounded` is preserved by every operation. -/
theorem ids_applyOp (db : DB) (op : Op) (hids : IdsBounded db) :
    IdsBounded (applyOp db op) := by
  cases op with
  | createAvail user body =>
    show IdsBounded (apiCreateAvailability db user body).2
    rcases createAvail_state_cases db user body with h | ⟨ins, h⟩
    · rw [h]; exact hids
    · rw [h]
      intro x hx
      rcases List.mem_append.mp hx with hxx | hxx
      · exact Nat.lt_succ_of_lt (hids x hxx)
      · rw [List.mem_singleton.mp hxx]
        exact Nat.lt_succ_self _
  | createBooking user body =>
    show IdsBounded (apiCreateBooking db user body).2
    rcases createBooking_state_cases db user body with h | ⟨a, hget, -, havail, hnext⟩
    · rw [h]; exact hids
    · intro x hx
      rw [havail] at hx
      rw [hnext]
      rcases mem_set_cases _ _ _ hx with h3 | h3
      · rw [h3]
        exact hids a (List.mem_of_find?_eq_some hget)
      · exact hids x h3
  | updateAvail uid u =>
    rcases updateAvail_state_cases db uid u with h | ⟨a2, hid2, havail, hnext, a, hfind, -⟩
    · rw [h]; exact hids
    · intro x hx
      rw [havail] at hx
      rw [hnext]
      rcases mem_set_cases _ _ _ hx with h3 | h3
      · rw [h3]
        have haid : a.id = uid := by simpa using List.find?_some hfind
        show a2.id < _
        rw [hid2, ← haid]
        exact hids a (List.mem_of_find?_eq_some hfind)
      · exact hids x h3
  | deleteAvail user did =>
    show IdsBounded (apiDeleteAvailability db user did).2
    rcases deleteAvail_state_cases db user did with h | ⟨havail, hnext⟩
    · rw [h]; exact hids
    · intro x hx
      rw [havail] at hx
      rw [hnext]
      exact hids x (List.mem_of_mem_filter hx)

/-- The availability id counter never decreases. -/
theorem next_mono_applyOp (db : DB) (op : Op) :
    db.nextAvailabilityId ≤ (applyOp db op).nextAvailabilityId := by
  cases op with
  | createAvail user body =>
    show db.nextAvailabilityId ≤ (apiCreateAvailability db user body).2.nextAvailabilityId
    rcases createAvail_state_cases db user body with h | ⟨ins, h⟩
    · rw [h]
    · rw [h]; exact Nat.le_succ _
  | createBooking user body =>
    show db.nextAvailabilityId ≤ (apiCreateBooking db user body).2.nextAvailabilityId
    rcases createBooking_state_cases db user body with h | ⟨a, -, -, -, hnext⟩
    · rw [h]
    · rw [hnext]
  | updateAvail uid u =>
    rcases updateAvail_state_cases db uid u with h | ⟨a2, -, -, hnext, -⟩
    · rw [h]
    · rw [hnext]
  | deleteAvail user did =>
    show db.nextAvailabilityId ≤ (apiDeleteAvailability db user did).2.nextAvailabilityId
    rcases deleteAvail_state_cases db user did with h | ⟨-, hnext⟩
    · rw [h]
    · rw [hnext]

/-- Outside administrative updates, one operation never increases the
remaining slots of an availability that is present before and after. -/
theorem lookup_mono_applyOp (db : DB) (op : Op) (hop : ¬isAdminUpdate op)
    (id : Nat) (a0 a1 : Availability)
    (h0 : tursoGetAvailability db id = some a0)
    (h1 : tursoGetAvailability (applyOp db op) id = some a1) :
    a1.remainingSlots ≤ a0.remainingSlots := by
  cases op with
  | createAvail user body =>
    have h1' : tursoGetAvailability (apiCreateAvailability db user body).2 id =
        some a1 := h1
    rcases createAvail_state_cases db user body with h | ⟨ins, h⟩
    · rw [h, h0] at h1'
      rw [Option.some.inj h1']
    · rw [h] at h1'
      have : (db.availabilities ++ [(tursoInsertAvailabilityRow db ins).1]).find?
          (fun a => a.id == id) = some a0 := find?_append_of_some h0
      have h1x : (db.availabilities ++ [(tursoInsertAvailabilityRow db ins).1]).find?
          (fun a => a.id == id) = some a1 := h1'
      rw [this] at h1x
      rw [← Option.some.inj h1x]
  | createBooking user body =>
    have h1' : tursoGetAvailability (apiCreateBooking db user body).2 id =
        some a1 := h1
    rcases createBooking_state_cases db user body with h | ⟨a, hget, hpos, havail, -⟩
    · rw [h, h0] at h1'
      rw [Option.some.inj h1']
    · have haid : a.id = body.availabilityId := by
        simpa using List.find?_some hget
      have h1x : (db.availabilities.map (fun r => if r.id == body.availabilityId
          then { a with remainingSlots := a.remainingSlots - 1 } else r)).find?
            (fun x => x.id == id) = some a1 := by
        rw [← havail]; exact h1'
      by_cases hcase : id = body.availabilityId
      · have h0x : tursoGetAvailability db body.availabilityId = some a0 := by
          rw [← hcase]; exact h0
        have ha0 : a0 = a := Option.some.inj (h0x.symm.trans hget)
        have hfound : (db.availabilities.find?
            (fun x => x.id == body.availabilityId)).isSome := by
          rw [show db.availabilities.find? (fun x => x.id == body.availabilityId) =
            some a from hget]
          rfl
        have hself := find?_set_self db.availabilities body.availabilityId
          { a with remainingSlots := a.remainingSlots - 1 } haid hfound
        rw [hcase, hself] at h1x
        rw [← Option.some.inj h1x, ha0]
        show a.remainingSlots - 1 ≤ a.remainingSlots
        omega
      · have := find?_set_other db.availabilities body.availabilityId id hcase
          { a with remainingSlots := a.remainingSlots - 1 } haid
        rw [this] at h1x
        have h0u : List.find? (fun a => a.id == id) db.availabilities = some a0 := h0
        rw [h0u] at h1x
        rw [Option.some.inj h1x]
  | updateAvail uid u => exact absurd trivial hop
  | deleteAvail user did =>
    have h1' : tursoGetAvailability (apiDeleteAvailability db user did).2 id =
        some a1 := h1
    rcases deleteAvail_state_cases db user did with h | ⟨havail, -⟩
    · rw [h, h0] at h1'
      rw [Option.some.inj h1']
    · have h1x : (db.availabilities.filter (fun a => !(a.id == did))).find?
          (fun x => x.id == id) = some a1 := by
        rw [← havail]; exact h1'
      by_cases hcase : id = did
      · subst hcase
        rw [find?_filterOut_self] at h1x
        cases h1x
      · rw [find?_filterOut_other _ _ _ hcase] at h1x
        have h0u : List.find? (fun a => a.id == id) db.availabilities = some a0 := h0
        rw [h0u] at h1x
        rw [Option.some.inj h1x]

/-- An availability id below the counter that is absent stays absent. -/
theorem lookup_none_applyOp (db : DB) (op : Op) (id : Nat)
    (hlt : id < db.nextAvailabilityId)
    (h0 : tursoGetAvailability db id = none) :
    tursoGetAvailability (applyOp db op) id = none := by
  cases op with
  | createAvail user body =>
    show tursoGetAvailability (apiCreateAvailability db user body).2 id = none
    rcases createAvail_state_cases db user body with h | ⟨ins, h⟩
    · rw [h]; exact h0
    · rw [h]
      show (db.availabilities ++ [(tursoInsertAvailabilityRow db ins).1]).find?
        (fun a => a.id == id) = none
      rw [find?_append_of_none h0]
      have : ((tursoInsertAvailabilityRow db ins).1.id == id) = false :=
        beq_eq_false_iff_ne.mpr (by
          show db.nextAvailabilityId ≠ id
          omega)
      rw [List.find?_cons_of_neg _ (by simp [this])]
      rfl
  | createBooking user body =>
    show tursoGetAvailability (apiCreateBooking db user body).2 id = none
    rcases createBooking_state_cases db user body with h | ⟨a, hget, -, havail, -⟩
    · rw [h]; exact h0
    · have haid : a.id = body.availabilityId := by
        simpa using List.find?_some hget
      by_cases hcase : id = body.availabilityId
      · subst hcase
        rw [h0] at hget
        cases hget
      · show tursoGetAvailability (apiCreateBooking db user body).2 id = none
        show ((apiCreateBooking db user body).2.availabilities).find?
          (fun x => x.id == id) = none
        rw [havail,
          find?_set_other db.availabilities body.availabilityId id hcase
            { a with remainingSlots := a.remainingSlots - 1 } haid]
        exact h0
  | updateAvail uid u =>
    rcases updateAvail_state_cases db uid u with h | ⟨a2, hid2, havail, -, a, hfind, -⟩
    · rw [h]; exact h0
    · by_cases hcase : id = uid
      · subst hcase
        rw [show db.availabilities.find? (fun x => x.id == id) = none from h0] at hfind
        cases hfind
      · show ((applyOp db (.updateAvail uid u)).availabilities).find?
          (fun x => x.id == id) = none
        rw [havail, find?_set_other db.availabilities uid id hcase a2 hid2]
        exact h0
  | deleteAvail user did =>
    show tursoGetAvailability (apiDeleteAvailability db user did).2 id = none
    rcases deleteAvail_state_cases db user did with h | ⟨havail, -⟩
    · rw [h]; exact h0
    · show ((apiDeleteAvailability db user did).2.availabilities).find?
        (fun x => x.id == id) = none
      rw [havail]
      by_cases hcase : id = did
      · subst hcase
        exact find?_filterOut_self _ _
      · rw [find?_filterOut_other _ _ _ hcase]
        exact h0

theorem ids_applyOps (ops : List Op) (db : DB) (hids : IdsBounded db) :
    IdsBounded (applyOps ops db) := by
  induction ops generalizing db with
  | nil => exact hids
  | cons op ops ih => exact ih (applyOp db op) (ids_applyOp db op hids)

theorem next_mono_applyOps (ops : List Op) (db : DB) :
    db.nextAvailabilityId ≤ (applyOps ops db).nextAvailabilityId := by
  induction ops generalizing db with
  | nil => exact le_refl _
  | cons op ops ih =>
    exact le_trans (next_mono_applyOp db op) (ih (applyOp db op))

theorem nonneg_applyOps (ops : List Op) (db : DB) (hnn : NonNegDB db)
    (hops : ∀ op ∈ ops, OpOK op) : NonNegDB (applyOps ops db) := by
  induction ops generalizing db with
  | nil => exact hnn
  | cons op ops ih =>
    exact ih (applyOp db op)
      (nonneg_applyOp db op hnn (hops op (List.mem_cons_self op ops)))
      (fun o ho => hops o (List.mem_cons_of_mem _ ho))

theorem lookup_none_applyOps (ops : List Op) (db : DB) (id : Nat)
    (hlt : id < db.nextAvailabilityId)
    (h0 : tursoGetAvailability db id = none) :
    tursoGetAvailability (applyOps ops db) id = none := by
  induction ops generalizing db with
  | nil => exact h0
  | cons op ops ih =>
    exact ih (applyOp db op) (lt_of_lt_of_le hlt (next_mono_applyOp db op))
      (lookup_none_applyOp db op id hlt h0)

theorem lookup_mono_applyOps (ops : List Op) (db : DB) (hids : IdsBounded db)
    (hnoupd : ∀ op ∈ ops, ¬isAdminUpdate op) (id : Nat) (a0 a1 : Availability)
    (h0 : tursoGetAvailability db id = some a0)
    (h1 : tursoGetAvailability (applyOps ops db) id = some a1) :
    a1.remainingSlots ≤ a0.remainingSlots := by
  induction ops generalizing db a0 with
  | nil =>
    rw [Option.some.inj (h0.symm.trans h1)]
  | cons op ops ih =>
    cases hmid : tursoGetAvailability (applyOp db op) id with
    | some am =>
      have step := lookup_mono_applyOp db op
        (hnoupd op (List.mem_cons_self op ops)) id a0 am h0 hmid
      have rest := ih (applyOp db op) (ids_applyOp db op hids)
        (fun o ho => hnoupd o (List.mem_cons_of_mem _ ho)) am hmid h1
      exact le_trans rest step
    | none =>
      have hmem := List.mem_of_find?_eq_some h0
      have hid : a0.id = id := by simpa using List.find?_some h0
      have hlt : id < db.nextAvailabilityId := hid ▸ hids a0 hmem
      have hnone := lookup_none_applyOps ops (applyOp db op) id
        (lt_of_lt_of_le hlt (next_mono_applyOp db op)) hmid
      have h1x : tursoGetAvailability (applyOps ops (applyOp db op)) id =
          some a1 := h1
      rw [hnone] at h1x
      cases h1x

/-! ### C3 -/

/-- C3 as amended: over every sequence of core operations in which each
`createAvailability` carries capacity at least 1 (the validation the spec
claims but the route does not enforce) and each administrative update
writes a non-negative `remainingSlots`, every stored `remainingSlots`
stays non-negative; and on sequences free of administrative updates the
`remainingSlots` of any availability present before and after is
non-increasing. -/
theorem c3_slots_invariant (ops : List Op) (db : DB)
    (hnn : NonNegDB db) (hids : IdsBounded db) (hops : ∀ op ∈ ops, OpOK op) :
    NonNegDB (applyOps ops db) ∧
    ((∀ op ∈ ops, ¬isAdminUpdate op) →
      ∀ id a0 a1, tursoGetAvailability db id = some a0 →
        tursoGetAvailability (applyOps ops db) id = some a1 →
        a1.remainingSlots ≤ a0.remainingSlots) :=
  ⟨nonneg_applyOps ops db hnn hops,
   fun hnoupd id a0 a1 h0 h1 =>
     lookup_mono_applyOps ops db hids hnoupd id a0 a1 h0 h1⟩

/-- C3 counterexample: starting from the empty (invariant-satisfying)
store, the single core operation `createAvailability` with capacity `-1`
(accepted by the code, see C7) produces a store with a negative
`remainingSlots`, so the claim's "never becomes negative" fails as
stated. -/
theorem c3_negative_slots_counterexample :
    NonNegDB dbEmpty ∧
    ¬NonNegDB (applyOps
      [Op.createAvail embUser (availBodyW (some (-1)) "08:00" "10:00")]
      dbEmpty) := by
  constructor
  · intro a ha
    simp [dbEmpty] at ha
  · intro h
    exact absurd (h availNeg1 (by decide)) (by decide)

/-- Witness for `c3_slots_invariant`: the create-then-book scenario. -/
theorem c3_slots_invariant_witness :
    NonNegDB (applyOps opsW dbEmpty) ∧
    ((∀ op ∈ opsW, ¬isAdminUpdate op) →
      ∀ id a0 a1, tursoGetAvailability dbEmpty id = some a0 →
        tursoGetAvailability (applyOps opsW dbEmpty) id = some a1 →
        a1.remainingSlots ≤ a0.remainingSlots) := by
  refine c3_slots_invariant opsW dbEmpty ?_ ?_ ?_
  · intro a ha
    simp [dbEmpty] at ha
  · intro a ha
    simp [dbEmpty] at ha
  · intro op hop
    rcases List.mem_cons.mp hop with h | h
    · rw [h]
      intro c hc
      have h1 : (1 : Int) = c := Option.some.inj hc
      omega
    · rcases List.mem_cons.mp h with h2 | h2
      · rw [h2]
        trivial
      · simp at h2

/-! ### C10 -/

theorem natDigitsAux_eq (fuel n : Nat) (h : n ≤ fuel) :
    natDigitsAux fuel n = Nat.digits 10 n := by
  induction fuel generalizing n with
  | zero =>
    interval_cases n
    simp [natDigitsAux]
  | succ f ih =>
    cases n with
    | zero => simp [natDigitsAux]
    | succ k =>
      have hd : (k + 1) / 10 ≤ f := by
        have := Nat.div_lt_self (Nat.succ_pos k) (by norm_num : 1 < 10)
        omega
      rw [show natDigitsAux (f + 1) (k + 1) =
          ((k + 1) % 10) :: natDigitsAux f ((k + 1) / 10) from rfl]
      rw [ih _ hd, Nat.digits_def' (by norm_num : (1 : Nat) < 10) (Nat.succ_pos k)]

theorem digitChar_inj_lt {d e : Nat} (hd : d < 10) (he : e < 10)
    (h : digitChar d = digitChar e) : d = e := by
  interval_cases d <;> interval_cases e <;> first | rfl | exact absurd h (by decide)

theorem map_digitChar_inj : ∀ {l1 l2 : List Nat}, (∀ d ∈ l1, d < 10) →
    (∀ d ∈ l2, d < 10) → l1.map digitChar = l2.map digitChar → l1 = l2
  | [], [], _, _, _ => rfl
  | [], _ :: _, _, _, h => by cases h
  | _ :: _, [], _, _, h => by cases h
  | d1 :: t1, d2 :: t2, h1, h2, h => by
    have hh := List.cons.inj h
    have hd := digitChar_inj_lt (h1 d1 (List.mem_cons_self d1 t1))
      (h2 d2 (List.mem_cons_self d2 t2)) hh.1
    have ht := map_digitChar_inj (fun d hd => h1 d (List.mem_cons_of_mem _ hd))
      (fun d hd => h2 d (List.mem_cons_of_mem _ hd)) hh.2
    rw [hd, ht]

theorem natToStr_inj {a b : Nat} (ha : a ≠ 0) (hb : b ≠ 0)
    (h : natToStr a = natToStr b) : a = b := by
  unfold natToStr at h
  rw [if_neg ha, if_neg hb] at h
  have hdata : (((natDigitsAux a a).map digitChar).reverse) =
      (((natDigitsAux b b).map digitChar).reverse) := congrArg String.data h
  have hmap := List.reverse_injective hdata
  rw [natDigitsAux_eq a a (le_refl a), natDigitsAux_eq b b (le_refl b)] at hmap
  have hdig := map_digitChar_inj
    (fun d hd => Nat.digits_lt_base (by norm_num) hd)
    (fun d hd => Nat.digits_lt_base (by norm_num) hd) hmap
  calc a = Nat.ofDigits 10 (Nat.digits 10 a) := (Nat.ofDigits_digits 10 a).symm
    _ = Nat.ofDigits 10 (Nat.digits 10 b) := by rw [hdig]
    _ = b := Nat.ofDigits_digits 10 b

theorem str_ext {s t : String} (h : s.data = t.data) : s = t := by
  cases s
  cases t
  exact congrArg String.mk h

theorem natToStr_len4 {y : Nat} (h1 : 1000 ≤ y) (h2 : y ≤ 9999) :
    (natToStr y).data.length = 4 := by
  have hlog : Nat.log 10 y = 3 :=
    Nat.log_eq_of_pow_le_of_lt_pow (by norm_num; omega) (by norm_num; omega)
  unfold natToStr
  rw [if_neg (by omega)]
  show (((natDigitsAux y y).map digitChar).reverse).length = 4
  rw [List.length_reverse, List.length_map, natDigitsAux_eq y y (le_refl y),
    Nat.digits_len 10 y (by norm_num) (by omega), hlog]

theorem padTwo_len2 {m : Nat} (h1 : 1 ≤ m) (h2 : m ≤ 12) :
    (padTwo m).data.length = 2 := by
  interval_cases m <;> decide

theorem padTwo_month_inj : ∀ m m2 : Nat, 1 ≤ m → m ≤ 12 → 1 ≤ m2 → m2 ≤ 12 →
    padTwo m = padTwo m2 → m = m2 := by
  intro m m2 h1 h2 h3 h4
  interval_cases m <;> interval_cases m2 <;> decide

/-- Any `YYYY-MM-DD` rendering of the queried month matches the `LIKE`
prefix. -/
theorem pref_of_same_month (y m d : Nat) :
    strHasPref (monthPref y m) (isoDateStr y m d) = true := by
  unfold strHasPref
  apply (List.isPrefixOf_iff_prefix).mpr
  have hdata : (isoDateStr y m d).data =
      (monthPref y m).data ++ ('-' :: (padTwo d).data) := by
    show ((monthPref y m ++ "-" ++ padTwo d).data = _)
    show (((monthPref y m).data ++ ['-']) ++ (padTwo d).data = _)
    simp
  rw [hdata]
  exact List.prefix_append _ _

/-- Conversely, a well-formed `YYYY-MM-DD` date that matches the `LIKE`
prefix of the queried month is a rendering of that month. -/
theorem pref_implies_same_month (y m y2 m2 d2 : Nat)
    (hy : 1000 ≤ y) (hy2 : y ≤ 9999) (hya : 1000 ≤ y2) (hyb : y2 ≤ 9999)
    (hm : 1 ≤ m) (hm2 : m ≤ 12) (hma : 1 ≤ m2) (hmb : m2 ≤ 12)
    (h : strHasPref (monthPref y m) (isoDateStr y2 m2 d2) = true) :
    y2 = y ∧ m2 = m := by
  unfold strHasPref at h
  have hpre := (List.isPrefixOf_iff_prefix).mp h
  have hS : (isoDateStr y2 m2 d2).data =
      ((natToStr y2).data ++ ('-' :: (padTwo m2).data)) ++
        ('-' :: (padTwo d2).data) := by
    show (((((natToStr y2).data ++ ['-']) ++ (padTwo m2).data) ++ ['-'])
      ++ (padTwo d2).data = _)
    simp
  have hP : (monthPref y m).data =
      (natToStr y).data ++ ('-' :: (padTwo m).data) := by
    show (((natToStr y).data ++ ['-']) ++ (padTwo m).data = _)
    simp
  rw [hS, hP] at hpre
  have hlenP : ((natToStr y).data ++ ('-' :: (padTwo m).data)).length = 7 := by
    rw [List.length_append, natToStr_len4 hy hy2]
    simp [padTwo_len2 hm hm2]
  have hlenT : ((natToStr y2).data ++ ('-' :: (padTwo m2).data)).length = 7 := by
    rw [List.length_append, natToStr_len4 hya hyb]
    simp [padTwo_len2 hma hmb]
  have htake := List.prefix_iff_eq_take.mp hpre
  rw [hlenP, List.take_append_eq_append_take, hlenT] at htake
  rw [show (7 : Nat) - 7 = 0 from rfl, List.take_zero, List.append_nil] at htake
  rw [show ((natToStr y2).data ++ ('-' :: (padTwo m2).data)).take 7 =
      ((natToStr y2).data ++ ('-' :: (padTwo m2).data)).take
        ((natToStr y2).data ++ ('-' :: (padTwo m2).data)).length from by
    rw [hlenT]] at htake
  rw [List.take_length] at htake
  have hinj := List.append_inj htake (by rw [natToStr_len4 hy hy2, natToStr_len4 hya hyb])
  have hytail := List.cons.inj hinj.2
  have hyeq : y = y2 := natToStr_inj (by omega) (by omega) (str_ext hinj.1)
  have hmeq : m = m2 := padTwo_month_inj m m2 hm hm2 hma hmb (str_ext hytail.2)
  exact ⟨hyeq.symm, hmeq.symm⟩

/-- C10: for a queried month `1 ≤ m ≤ 12` of a four-digit year, over a
store whose dates are all well-formed `YYYY-MM-DD` strings,
`getAvailabilitiesByMonth` returns a sequence sorted ascending by `date`
and then by `startTime` (the TEXT ordering of `ORDER BY date ASC,
start_time ASC`), containing exactly the stored availabilities whose date
is a rendering of the queried calendar month. -/
theorem c10_by_month_filter_and_order (db : DB) (y m : Nat)
    (hy : 1000 ≤ y) (hy2 : y ≤ 9999) (hm : 1 ≤ m) (hm2 : m ≤ 12)
    (hwf : ∀ a ∈ db.availabilities, ∃ y2 m2 d2,
      1000 ≤ y2 ∧ y2 ≤ 9999 ∧ 1 ≤ m2 ∧ m2 ≤ 12 ∧
        a.date = isoDateStr y2 m2 d2) :
    List.Sorted availOrder (tursoGetAvailabilitiesByMonth db y m) ∧
    ∀ a, a ∈ tursoGetAvailabilitiesByMonth db y m ↔
      (a ∈ db.availabilities ∧ ∃ d2, a.date = isoDateStr y m d2) := by
  constructor
  · exact List.sorted_insertionSort availOrder _
  · intro a
    unfold tursoGetAvailabilitiesByMonth
    rw [(List.perm_insertionSort availOrder _).mem_iff, List.mem_filter]
    constructor
    · rintro ⟨hmem, hpred⟩
      refine ⟨hmem, ?_⟩
      obtain ⟨y2, m2, d2, hb1, hb2, hb3, hb4, hdate⟩ := hwf a hmem
      rw [hdate] at hpred
      obtain ⟨hyy, hmm⟩ := pref_implies_same_month y m y2 m2 d2
        hy hy2 hb1 hb2 hm hm2 hb3 hb4 hpred
      exact ⟨d2, by rw [hdate, hyy, hmm]⟩
    · rintro ⟨hmem, d2, hdate⟩
      refine ⟨hmem, ?_⟩
      rw [hdate]
      exact pref_of_same_month y m d2

/-- Witness for `c10_by_month_filter_and_order`: June 2024 over a store
holding two June rows (stored out of order) and one May row. -/
theorem c10_by_month_filter_and_order_witness :
    List.Sorted availOrder (tursoGetAvailabilitiesByMonth dbMonth 2024 6) ∧
    ∀ a, a ∈ tursoGetAvailabilitiesByMonth dbMonth 2024 6 ↔
      (a ∈ dbMonth.availabilities ∧ ∃ d2, a.date = isoDateStr 2024 6 d2) := by
  refine c10_by_month_filter_and_order dbMonth 2024 6
    (by decide) (by decide) (by decide) (by decide) ?_
  intro a ha
  have ha2 : a ∈ [avail1, availMay, availJun1] := ha
  rcases List.mem_cons.mp ha2 with h | h2
  · refine ⟨2024, 6, 10, by decide, by decide, by decide, by decide, ?_⟩
    rw [h]
    decide
  · rcases List.mem_cons.mp h2 with h | h3
    · refine ⟨2024, 5, 1, by decide, by decide, by decide, by decide, ?_⟩
      rw [h]
      decide
    · rcases List.mem_cons.mp h3 with h | h4
      · refine ⟨2024, 6, 1, by decide, by decide, by decide, by decide, ?_⟩
        rw [h]
        decide
      · simp at h4

end Embasa